import Mathlib

set_option maxHeartbeats 1000000

/-! Verification of the Salesforce debug-log downloader core: a shallow
embedding of the record model (types.ts), the text search (log-search.ts),
the paginated client (salesforce-client.ts) and the download pipeline,
with theorems about search, pagination, batching and error recovery. -/

namespace SfLogs

/-- One debug-log record as returned by the query endpoint (types.ts, DebugLog). -/
structure DebugLog where
  Id : String
  LogUserId : String
  LogLength : Nat
  LastModifiedDate : String
  Request : String
  Operation : String
  Application : String
  Status : String
  DurationMilliseconds : Nat
  StartTime : String
  Location : String
deriving DecidableEq

/-- One match inside a log body (types.ts, LogMatch). -/
structure LogMatch where
  lineNumber : Nat
  line : String
  context : List String
deriving DecidableEq

/-- Character-level splitting on a separator, the semantics of the JavaScript
split with a one-character separator: an empty input gives one empty piece,
every occurrence of the separator starts a new piece. -/
def splitCharList (sep : Char) : List Char → List (List Char)
  | [] => [[]]
  | c :: rest =>
    match splitCharList sep rest with
    | [] => [[]]
    | l :: ls => if c = sep then [] :: l :: ls else (c :: l) :: ls

/-- String-level wrapper for `splitCharList`. -/
def splitStr (sep : Char) (s : String) : List String :=
  (splitCharList sep s.data).map String.mk

/-- JavaScript toLowerCase, restricted to the ASCII lowering of `Char.toLower`. -/
def toLowerStr (s : String) : String :=
  String.mk (s.data.map Char.toLower)

/-- JavaScript trim: whitespace removed from both ends. -/
def trimStr (s : String) : String :=
  String.mk (((s.data.dropWhile Char.isWhitespace).reverse.dropWhile Char.isWhitespace).reverse)

/-- Does the first list start with the second one? -/
def startsWithList : List Char → List Char → Bool
  | _, [] => true
  | [], _ :: _ => false
  | a :: as, b :: bs => a == b && startsWithList as bs

/-- JavaScript String.includes: `pat` occurs as a contiguous substring. -/
def includesList (pat : List Char) : List Char → Bool
  | [] => startsWithList [] pat
  | c :: rest => startsWithList (c :: rest) pat || includesList pat rest

/-- String-level wrapper for `includesList`. -/
def strIncludes (s pat : String) : Bool :=
  includesList pat.data s.data

/-- LogSearcher.getContext (log-search.ts): the labeled, trimmed lines in the
window from max(0, matchIndex - contextLines) to
min(length - 1, matchIndex + contextLines), the matched line itself excluded;
each entry carries its own 1-based line number as a decimal prefix. -/
def getContext (lines : List String) (matchIndex contextLines : Nat) : List String :=
  let start := matchIndex - contextLines
  let stop := min (lines.length - 1) (matchIndex + contextLines)
  (List.range' start (stop + 1 - start)).filterMap fun i =>
    if i = matchIndex then none
    else some (toString (i + 1) ++ ": " ++ trimStr (lines.getD i ""))

/-- The forEach body of LogSearcher.searchInLogBody: walk the lines carrying
the 0-based index, emit a LogMatch for every line whose normalized text
contains the normalized pattern. -/
def searchInBodyLines (allLines : List String) (searchPattern : String) (caseSensitive : Bool) :
    List String → Nat → List LogMatch
  | [], _ => []
  | line :: rest, index =>
    let searchLine := if caseSensitive then line else toLowerStr line
    if strIncludes searchLine searchPattern then
      { lineNumber := index + 1, line := trimStr line, context := getContext allLines index 2 }
        :: searchInBodyLines allLines searchPattern caseSensitive rest (index + 1)
    else
      searchInBodyLines allLines searchPattern caseSensitive rest (index + 1)

/-- LogSearcher.searchInLogBody (log-search.ts): split the body on line feeds,
normalize the pattern once per the case-sensitivity flag, and scan every line. -/
def searchInLogBody (logBody searchText : String) (caseSensitive : Bool) : List LogMatch :=
  let lines := splitStr '\n' logBody
  let searchPattern := if caseSensitive then searchText else toLowerStr searchText
  searchInBodyLines lines searchPattern caseSensitive lines 0

/-- The end-to-end scenario of the spec: two case-insensitive matches with
their clipped context windows. -/
theorem searchInLogBody_end_to_end :
    (searchInLogBody "a\nFOO\nb\nc\nd\nFOO\ne" "foo" false).map LogMatch.lineNumber = [2, 6]
    ∧ (searchInLogBody "a\nFOO\nb\nc\nd\nFOO\ne" "foo" false).map LogMatch.context
      = [["1: a", "3: b", "4: c"], ["4: c", "5: d", "7: e"]] := by
  decide

/-- The SOQL page size of the accumulation loops (salesforce-client.ts, batchSize). -/
def pageBatchSize : Nat := 200

/-- The mutable state of the getAllDebugLogs while loop: the accumulator, the
offset and the hasMore sentinel. -/
structure FetchAllState where
  allLogs : List DebugLog
  offset : Nat
  hasMore : Bool
deriving DecidableEq

/-- The loop state before the first iteration. -/
def initialFetchAll : FetchAllState := ⟨[], 0, true⟩

/-- The while condition of getAllDebugLogs: hasMore, and when maxLogs is given
(a truthy number; zero or unset both mean unlimited) fewer than maxLogs
records accumulated so far. -/
def getAllGuard (maxLogs : Nat) (s : FetchAllState) : Bool :=
  s.hasMore && (maxLogs == 0 || s.allLogs.length < maxLogs)

/-- The LIMIT requested for the next page:
min(batchSize, maxLogs - allLogs.length), or batchSize when unlimited. -/
def currentBatchSize (maxLogs : Nat) (s : FetchAllState) : Nat :=
  let remainingLogs := if maxLogs == 0 then pageBatchSize else maxLogs - s.allLogs.length
  min pageBatchSize remainingLogs

/-- One iteration of the getAllDebugLogs loop body (identical in the byUser and
byDateRange variants, which differ only in the issued query): fetch the page
at the current offset; on failure clear hasMore and keep what was accumulated
(the catch branch breaks the loop); on success append the batch, advance the
offset by the number of records actually returned, and keep going only when
the page came back full. -/
def getAllStep (fetchPage : Nat → Nat → Option (List DebugLog)) (maxLogs : Nat)
    (s : FetchAllState) : FetchAllState :=
  match fetchPage (currentBatchSize maxLogs s) s.offset with
  | none => { s with hasMore := false }
  | some batch =>
    { allLogs := s.allLogs ++ batch
      offset := s.offset + batch.length
      hasMore := batch.length == currentBatchSize maxLogs s }

/-- The while loop of getAllDebugLogs, fuel bounding the number of iterations. -/
def getAllRun (fetchPage : Nat → Nat → Option (List DebugLog)) (maxLogs : Nat) :
    Nat → FetchAllState → FetchAllState
  | 0, s => s
  | fuel + 1, s =>
    if getAllGuard maxLogs s then
      getAllRun fetchPage maxLogs fuel (getAllStep fetchPage maxLogs s)
    else s

/-- SalesforceClient.getAllDebugLogs: run the loop from the initial state and
return the accumulated records. -/
def getAllDebugLogs (fetchPage : Nat → Nat → Option (List DebugLog))
    (maxLogs fuel : Nat) : List DebugLog :=
  (getAllRun fetchPage maxLogs fuel initialFetchAll).allLogs

/-- The group loop of getDebugLogBodies: slice(i, i + 10) until the ids run
out, the fuel (instantiated with the list length) bounding iterations. -/
def batchesGo : Nat → List α → List (List α)
  | 0, _ => []
  | _ + 1, [] => []
  | fuel + 1, x :: xs => ((x :: xs).take 10) :: batchesGo fuel ((x :: xs).drop 10)

/-- The consecutive groups of 10 ids processed by getDebugLogBodies. -/
def logIdBatches (l : List α) : List (List α) := batchesGo l.length l

/-- The expected group sizes for n ids: full groups of 10, then the remainder. -/
def batchSizesGo : Nat → Nat → List Nat
  | 0, _ => []
  | _ + 1, 0 => []
  | fuel + 1, n => min 10 n :: batchSizesGo fuel (n - 10)

/-- Group sizes as a function of the id count alone. -/
def batchSizes (n : Nat) : List Nat := batchSizesGo n n

/-- One group of getDebugLogBodies: every id is fetched (concurrently in the
source); a failure is caught, logged and the id omitted, successes are kept. -/
def fetchBatchBodies (fetchBody : String → Option String) (batch : List String) :
    List (String × String) :=
  batch.filterMap fun logId => (fetchBody logId).map fun body => (logId, body)

/-- SalesforceClient.getDebugLogBodies: process the ids in consecutive groups
of 10 and accumulate each group's successful (id, body) pairs in order. -/
def getDebugLogBodies (fetchBody : String → Option String) (logIds : List String) :
    List (String × String) :=
  ((logIdBatches logIds).map (fetchBatchBodies fetchBody)).flatten

/-- One record paired with its non-empty matches (types.ts, SearchResult; the
source's field name "matches" is a Lean keyword, hence matchList). -/
structure SearchResult where
  log : DebugLog
  matchList : List LogMatch
deriving DecidableEq

/-- The per-record body of the search loops in LogSearcher.searchLogs,
searchLogsWithStats and searchAllLogsWithStats: fetch the record's body (a
failure is caught with a warning and the record skipped), run the text search,
and keep the record exactly when it has at least one match. -/
def searchLoopBody (fetchBody : String → Option String) (searchText : String)
    (caseSensitive : Bool) (log : DebugLog) : Option SearchResult :=
  match fetchBody log.Id with
  | none => none
  | some logBody =>
    let found := searchInLogBody logBody searchText caseSensitive
    if 0 < found.length then some ⟨log, found⟩ else none

/-- The search loop over the resolved record set (the record set itself is
fetched by the client and passed in here). -/
def searchLogsLoop (fetchBody : String → Option String) (searchText : String)
    (caseSensitive : Bool) (logs : List DebugLog) : List SearchResult :=
  logs.filterMap (searchLoopBody fetchBody searchText caseSensitive)

/-- LogSearcher.searchLogsWithStats: the results and the count of records
examined (the length of the record set, failed fetches included). -/
def searchLogsWithStats (fetchBody : String → Option String) (searchText : String)
    (caseSensitive : Bool) (logs : List DebugLog) : List SearchResult × Nat :=
  (searchLogsLoop fetchBody searchText caseSensitive logs, logs.length)

/-- FileUtils.getApproximateFileSize: the record's declared length plus a
fixed 1KB overhead. -/
def getApproximateFileSize (logLength : Nat) : Nat := logLength + 1024

/-- The estimatedSize computed by FileUtils.checkDiskSpace (its hasSpace flag
is constantly true in the source, so only the size matters). -/
def estimatedDownloadSize (logs : List DebugLog) : Nat :=
  logs.foldl (fun total log => total + getApproximateFileSize log.LogLength) 0

/-- path.join as used on the output directory and a generated file name. -/
def joinPath (dir file : String) : String := dir ++ "/" ++ file

/-- The regex replace of FileUtils.generateLogFileName: every character that
is not alphanumeric becomes an underscore. -/
def sanitizeOperation (op : String) : String :=
  String.mk (op.data.map fun c => if c.isAlphanum then c else '_')

/-- FileUtils.generateLogFileName: timestamp, sanitized operation, the first 8
characters of the id, then the extension. The moment date formatting is an
external library, passed in as formatDate. -/
def generateLogFileName (formatDate : String → String) (log : DebugLog)
    (extension : String) : String :=
  formatDate log.LastModifiedDate ++ "_" ++ sanitizeOperation log.Operation
    ++ "_" ++ String.mk (log.Id.data.take 8) ++ extension

/-- The statistics object of the download summary (file-utils.ts,
createDownloadSummary). -/
structure DownloadSummaryStats where
  totalLogsSearched : Nat
  logsWithMatches : Nat
  logsDownloaded : Nat
  downloadsFailed : Nat
deriving DecidableEq

/-- The download-summary.json object written by FileUtils.createDownloadSummary
(the timestamp field and the per-id reason tag carry no information and are
omitted; failedDownloads keeps the id list). -/
structure DownloadSummary where
  searchText : String
  statistics : DownloadSummaryStats
  failedDownloads : List String
deriving DecidableEq

/-- FileUtils.createDownloadSummary: the object serialized to
download-summary.json. -/
def createDownloadSummary (searchText : String) (totalLogs matchingLogs downloadedLogs : Nat)
    (failedDownloads : List String) : DownloadSummary :=
  ⟨searchText, ⟨totalLogs, matchingLogs, downloadedLogs, failedDownloads.length⟩, failedDownloads⟩

/-- The DownloadResult returned to the caller (types.ts). -/
structure DownloadResult where
  searchText : String
  totalLogsSearched : Nat
  matchingLogs : Nat
  downloadedLogs : Nat
  failedDownloads : List String
  downloadPath : String
  estimatedSize : Nat
deriving DecidableEq

/-- One call to an external collaborator, recorded in order: directory
creation, the bulk body fetch, and each file write. -/
inductive Effect where
  | ensureDir (dir : String)
  | bulkFetch (ids : List String)
  | saveLog (path : String) (body : String)
  | saveMetadata (path : String) (log : DebugLog) (matchList : List LogMatch)
  | saveSummary (path : String) (summary : DownloadSummary)
deriving DecidableEq

/-- The save loop of LogSearcher.searchAndDownloadLogs: for each search result
in order, look its body up in the bulk-fetched map; a missing body marks the
id failed; otherwise save the log (and, when enabled, a metadata sidecar with
the matches); a save failure (saveOk false) marks the id failed and writes
nothing. Returns (downloaded ids, failed ids, write effects), each in order. -/
def saveSearchResults (logBodies : List (String × String)) (saveOk : String → Bool)
    (formatDate : String → String) (outputDir : String) (includeMetadata : Bool) :
    List SearchResult → List String × List String × List Effect
  | [] => ([], [], [])
  | r :: rest =>
    let acc := saveSearchResults logBodies saveOk formatDate outputDir includeMetadata rest
    match logBodies.lookup r.log.Id with
    | none => (acc.1, r.log.Id :: acc.2.1, acc.2.2)
    | some logBody =>
      let logFilePath := joinPath outputDir (generateLogFileName formatDate r.log ".log")
      if saveOk logFilePath then
        (r.log.Id :: acc.1, acc.2.1,
          Effect.saveLog logFilePath logBody
            :: (if includeMetadata then
                  [Effect.saveMetadata
                    (joinPath outputDir (generateLogFileName formatDate r.log ".json"))
                    r.log r.matchList]
                else [])
              ++ acc.2.2)
      else (acc.1, r.log.Id :: acc.2.1, acc.2.2)

/-- LogSearcher.searchAndDownloadLogs: search with stats first; with zero
matching logs return the zero-valued report at once (no directory created, no
bodies fetched); otherwise estimate the size, create the directory, bulk-fetch
the matching ids' bodies, save each result, and when enabled write the summary
whose totalLogs argument is the matching-record list's length. -/
def searchAndDownloadLogs (fetchBody : String → Option String) (saveOk : String → Bool)
    (formatDate : String → String) (logs : List DebugLog) (searchText : String)
    (caseSensitive : Bool) (outputDir : String) (includeMetadata createSummary : Bool) :
    DownloadResult × List Effect :=
  let sr := searchLogsWithStats fetchBody searchText caseSensitive logs
  let searchResults := sr.1
  let totalLogsSearched := sr.2
  if searchResults.length = 0 then
    (⟨searchText, totalLogsSearched, 0, 0, [], outputDir, 0⟩, [])
  else
    let matchingLogRecords := searchResults.map SearchResult.log
    let estimatedSize := estimatedDownloadSize matchingLogRecords
    let logIds := matchingLogRecords.map DebugLog.Id
    let logBodies := getDebugLogBodies fetchBody logIds
    let saved := saveSearchResults logBodies saveOk formatDate outputDir includeMetadata searchResults
    let summaryEffects :=
      if createSummary then
        [Effect.saveSummary (joinPath outputDir "download-summary.json")
          (createDownloadSummary searchText matchingLogRecords.length searchResults.length
            saved.1.length saved.2.1)]
      else []
    (⟨searchText, totalLogsSearched, searchResults.length, saved.1.length,
        saved.2.1, outputDir, estimatedSize⟩,
      Effect.ensureDir outputDir :: Effect.bulkFetch logIds :: (saved.2.2 ++ summaryEffects))

/-- The metadata-recovery loop of LogSearcher.downloadLogsByIds: for each
requested id, fetch a recent page (modeled as the fixed list recentLogs, the
most-recent records, cap 1000 in the source) and keep the record whose Id
matches, when found. -/
def recoveredLogs (recentLogs : List DebugLog) (logIds : List String) : List DebugLog :=
  logIds.filterMap fun logId => recentLogs.find? fun l => l.Id == logId

/-- The save loop of LogSearcher.downloadLogsByIds: it iterates over the
recovered records only; the metadata sidecar carries no match list here. -/
def saveLogsById (logBodies : List (String × String)) (saveOk : String → Bool)
    (formatDate : String → String) (outputDir : String) (includeMetadata : Bool) :
    List DebugLog → List String × List String × List Effect
  | [] => ([], [], [])
  | log :: rest =>
    let acc := saveLogsById logBodies saveOk formatDate outputDir includeMetadata rest
    match logBodies.lookup log.Id with
    | none => (acc.1, log.Id :: acc.2.1, acc.2.2)
    | some logBody =>
      let logFilePath := joinPath outputDir (generateLogFileName formatDate log ".log")
      if saveOk logFilePath then
        (log.Id :: acc.1, acc.2.1,
          Effect.saveLog logFilePath logBody
            :: (if includeMetadata then
                  [Effect.saveMetadata
                    (joinPath outputDir (generateLogFileName formatDate log ".json")) log []]
                else [])
              ++ acc.2.2)
      else (acc.1, log.Id :: acc.2.1, acc.2.2)

/-- LogSearcher.downloadLogsByIds: recover metadata from the recent page,
estimate the size from the recovered records only, create the directory,
bulk-fetch bodies for every requested id, then save over the recovered
records. -/
def downloadLogsByIds (fetchBody : String → Option String) (saveOk : String → Bool)
    (formatDate : String → String) (recentLogs : List DebugLog)
    (logIds : List String) (outputDir : String) (includeMetadata : Bool) :
    DownloadResult × List Effect :=
  let allLogs := recoveredLogs recentLogs logIds
  let estimatedSize := estimatedDownloadSize allLogs
  let logBodies := getDebugLogBodies fetchBody logIds
  let saved := saveLogsById logBodies saveOk formatDate outputDir includeMetadata allLogs
  (⟨"Direct download", logIds.length, logIds.length, saved.1.length, saved.2.1,
      outputDir, estimatedSize⟩,
    Effect.ensureDir outputDir :: Effect.bulkFetch logIds :: saved.2.2)

/-- The field list shared by every record query (salesforce-client.ts). -/
def soqlSelect : String :=
  "SELECT Id, LogUserId, LogLength, LastModifiedDate, Request, Operation, Application, Status, DurationMilliseconds, StartTime, Location FROM ApexLog"

/-- The query issued by SalesforceClient.getDebugLogs: the input limit is
interpolated into the LIMIT clause as is. -/
def getDebugLogsQuery (limit : Int) : String :=
  soqlSelect ++ " ORDER BY LastModifiedDate DESC LIMIT " ++ toString limit

/-- The query issued by SalesforceClient.getDebugLogsByUser. -/
def getDebugLogsByUserQuery (userId : String) (limit : Int) : String :=
  soqlSelect ++ " WHERE LogUserId = \x27" ++ userId
    ++ "\x27 ORDER BY LastModifiedDate DESC LIMIT " ++ toString limit

/-- The whereClause built by SalesforceClient.getDebugLogsByDateRange from the
optional bounds (conditions joined with AND). -/
def dateRangeWhereClause (dateFrom dateTo : Option String) : String :=
  match dateFrom, dateTo with
  | none, none => ""
  | some df, none => " WHERE LastModifiedDate >= " ++ df
  | none, some dt => " WHERE LastModifiedDate <= " ++ dt
  | some df, some dt =>
    " WHERE LastModifiedDate >= " ++ df ++ " AND LastModifiedDate <= " ++ dt

/-- The query issued by SalesforceClient.getDebugLogsByDateRange. -/
def getDebugLogsByDateRangeQuery (dateFrom dateTo : Option String) (limit : Int) : String :=
  soqlSelect ++ dateRangeWhereClause dateFrom dateTo
    ++ " ORDER BY LastModifiedDate DESC LIMIT " ++ toString limit

/-- The last space-separated token of a query string; for the three record
queries this is exactly the value of the LIMIT clause. -/
def lastToken (q : String) : String :=
  String.mk ((q.data.reverse.takeWhile fun c => c != ' ').reverse)

/-- Modelled from the spec: the claimed clamping policy, at least 1 and at
most the server page cap (no such computation exists in the source; this
definition exists only to be compared with the issued queries). -/
def clampedLimitSpec (pageCap : Nat) (limit : Int) : Int :=
  max 1 (min limit (Int.ofNat pageCap))

/-- Every match emitted by the line scan carries a line number strictly past
the starting index. -/
theorem searchInBodyLines_lineNumber_gt (allLines : List String) (p : String) (cs : Bool)
    (ls : List String) : ∀ (idx : Nat) (m : LogMatch),
    m ∈ searchInBodyLines allLines p cs ls idx → idx < m.lineNumber := by
  induction ls with
  | nil => intro idx m h; simp [searchInBodyLines] at h
  | cons line rest ih =>
    intro idx m h
    simp only [searchInBodyLines] at h
    by_cases hc : strIncludes (if cs then line else toLowerStr line) p = true
    · rw [if_pos hc] at h
      rcases List.mem_cons.mp h with rfl | hm
      · simp
      · exact Nat.lt_of_succ_lt (ih (idx + 1) m hm)
    · rw [if_neg hc] at h
      exact Nat.lt_of_succ_lt (ih (idx + 1) m h)

/-- The scan emits exactly one match for the line at offset j when that line's
normalized text contains the pattern, and none otherwise. -/
theorem searchInBodyLines_countP (allLines : List String) (p : String) (cs : Bool)
    (ls : List String) : ∀ (idx j : Nat), j < ls.length →
    (searchInBodyLines allLines p cs ls idx).countP (fun m => m.lineNumber == idx + j + 1)
      = if strIncludes (if cs then ls.getD j "" else toLowerStr (ls.getD j "")) p then 1 else 0 := by
  induction ls with
  | nil => intro idx j hj; simp at hj
  | cons line rest ih =>
    intro idx j hj
    have tail_zero : (searchInBodyLines allLines p cs rest (idx + 1)).countP
        (fun m => m.lineNumber == idx + 0 + 1) = 0 := by
      rw [List.countP_eq_zero]
      intro m hm
      have := searchInBodyLines_lineNumber_gt allLines p cs rest (idx + 1) m hm
      simp only [beq_iff_eq]
      omega
    match j with
    | 0 =>
      simp only [searchInBodyLines, List.getD_cons_zero]
      by_cases hc : strIncludes (if cs then line else toLowerStr line) p = true
      · rw [if_pos hc, if_pos hc, List.countP_cons, tail_zero]
        simp
      · rw [if_neg hc, if_neg hc]
        exact tail_zero
    | j + 1 =>
      have harith : idx + (j + 1) + 1 = (idx + 1) + j + 1 := by omega
      have hj' : j < rest.length := by simpa using hj
      have htail := ih (idx + 1) j hj'
      simp only [searchInBodyLines, List.getD_cons_succ, harith]
      by_cases hc : strIncludes (if cs then line else toLowerStr line) p = true
      · rw [if_pos hc, List.countP_cons, htail]
        have hne : (idx + 1 == idx + 1 + j + 1) = false := by
          simp only [beq_eq_false_iff_ne, ne_eq]
          omega
        simp [hne]
      · rw [if_neg hc]
        exact htail

/-- Every emitted match comes from a line whose normalized text contains the
pattern, at the matching 1-based offset from the starting index. -/
theorem searchInBodyLines_mem_src (allLines : List String) (p : String) (cs : Bool)
    (ls : List String) : ∀ (idx : Nat) (m : LogMatch),
    m ∈ searchInBodyLines allLines p cs ls idx →
    ∃ j, j < ls.length ∧ m.lineNumber = idx + j + 1
      ∧ strIncludes (if cs then ls.getD j "" else toLowerStr (ls.getD j "")) p = true := by
  induction ls with
  | nil => intro idx m h; simp [searchInBodyLines] at h
  | cons line rest ih =>
    intro idx m h
    simp only [searchInBodyLines] at h
    by_cases hc : strIncludes (if cs then line else toLowerStr line) p = true
    · rw [if_pos hc] at h
      rcases List.mem_cons.mp h with rfl | hm
      · exact ⟨0, by simp, by simp, by simpa using hc⟩
      · obtain ⟨j, hj, hln, hinc⟩ := ih (idx + 1) m hm
        exact ⟨j + 1, by simpa using hj, by omega, by simpa using hinc⟩
    · rw [if_neg hc] at h
      obtain ⟨j, hj, hln, hinc⟩ := ih (idx + 1) m h
      exact ⟨j + 1, by simpa using hj, by omega, by simpa using hinc⟩

/-- The emitted line numbers are strictly increasing. -/
theorem searchInBodyLines_pairwise (allLines : List String) (p : String) (cs : Bool)
    (ls : List String) : ∀ idx : Nat,
    List.Pairwise (· < ·) ((searchInBodyLines allLines p cs ls idx).map LogMatch.lineNumber) := by
  induction ls with
  | nil => intro idx; simp [searchInBodyLines]
  | cons line rest ih =>
    intro idx
    simp only [searchInBodyLines]
    by_cases hc : strIncludes (if cs then line else toLowerStr line) p = true
    · rw [if_pos hc, List.map_cons]
      refine List.Pairwise.cons ?_ (ih (idx + 1))
      intro b hb
      obtain ⟨m, hm, rfl⟩ := List.mem_map.mp hb
      have := searchInBodyLines_lineNumber_gt allLines p cs rest (idx + 1) m hm
      simpa using this
    · rw [if_neg hc]
      exact ih (idx + 1)

/-- C1: for every body and pattern, case-insensitive search returns exactly
one match per line (split on line feeds) whose lowercased text contains the
lowercased pattern, no other entries, in strictly increasing 1-based
line-number order. -/
theorem searchInLogBody_caseInsensitive_spec (B P : String) :
    (∀ j, j < (splitStr '\n' B).length →
      (searchInLogBody B P false).countP (fun m => m.lineNumber == j + 1)
        = if strIncludes (toLowerStr ((splitStr '\n' B).getD j "")) (toLowerStr P) then 1
          else 0)
    ∧ (∀ m ∈ searchInLogBody B P false, ∃ j, j < (splitStr '\n' B).length
        ∧ m.lineNumber = j + 1
        ∧ strIncludes (toLowerStr ((splitStr '\n' B).getD j "")) (toLowerStr P) = true)
    ∧ List.Pairwise (· < ·) ((searchInLogBody B P false).map LogMatch.lineNumber) := by
  refine ⟨fun j hj => ?_, fun m hm => ?_, ?_⟩
  · have := searchInBodyLines_countP (splitStr '\n' B) (toLowerStr P) false
      (splitStr '\n' B) 0 j hj
    simpa [searchInLogBody] using this
  · have hm' : m ∈ searchInBodyLines (splitStr '\n' B) (toLowerStr P) false
        (splitStr '\n' B) 0 := by simpa [searchInLogBody] using hm
    obtain ⟨j, hj, hln, hinc⟩ := searchInBodyLines_mem_src (splitStr '\n' B) (toLowerStr P)
      false (splitStr '\n' B) 0 m hm'
    exact ⟨j, hj, by omega, by simpa using hinc⟩
  · have := searchInBodyLines_pairwise (splitStr '\n' B) (toLowerStr P) false
      (splitStr '\n' B) 0
    simpa [searchInLogBody] using this

/-- C1 witness: on the spec's own example the theorem yields the exact count
for line 2, which contains the pattern ignoring case. -/
theorem searchInLogBody_caseInsensitive_spec_witness :
    (searchInLogBody "a\nFOO\nb\nc\nd\nFOO\ne" "foo" false).countP
      (fun m => m.lineNumber == 2) = 1 := by
  have h := (searchInLogBody_caseInsensitive_spec "a\nFOO\nb\nc\nd\nFOO\ne" "foo").1 1
    (by decide)
  exact h.trans (by decide)

/-- Filtering out a value absent from the list is just a map. -/
theorem filterMap_skip_map (g : Nat → α) (m : Nat) (l : List Nat) (h : ∀ i ∈ l, ¬ i = m) :
    (l.filterMap fun i => if i = m then none else some (g i)) = l.map g := by
  induction l with
  | nil => rfl
  | cons a t ih =>
    have ha : ¬ a = m := h a (List.mem_cons_self a t)
    rw [List.filterMap_cons_some (by rw [if_neg ha]), List.map_cons,
      ih fun i hi => h i (List.mem_cons_of_mem a hi)]

/-- Filtering exactly one index out of a contiguous window drops exactly one
element. -/
theorem range'_skip_length (g : Nat → α) (m s n : Nat) (h1 : s ≤ m) (h2 : m < s + n) :
    ((List.range' s n).filterMap fun i => if i = m then none else some (g i)).length
      = n - 1 := by
  induction n generalizing s with
  | zero => omega
  | succ n ih =>
    rw [List.range'_succ]
    by_cases hs : s = m
    · rw [List.filterMap_cons_none (by rw [if_pos hs]),
        filterMap_skip_map g m _ fun i hi => by
          have := List.mem_range'_1.mp hi
          omega]
      simp
    · rw [List.filterMap_cons_some (by rw [if_neg hs]), List.length_cons,
        ih (s + 1) (by omega) (by omega)]
      omega

/-- C3 amended: for a match at 1-based line i in an n-line body, the context
list has length min(i+2, n) - max(i-2, 1) (the full window minus the matched
line, which the subtraction of the endpoints already accounts for), and every
entry is the labeled rendering of a line other than the matched one. -/
theorem getContext_window_spec (lines : List String) (i : Nat)
    (h1 : 1 ≤ i) (h2 : i ≤ lines.length) :
    (getContext lines (i - 1) 2).length = min (i + 2) lines.length - max (i - 2) 1
    ∧ ∀ e ∈ getContext lines (i - 1) 2, ∃ j, j < lines.length ∧ j + 1 ≠ i
        ∧ e = toString (j + 1) ++ ": " ++ trimStr (lines.getD j "") := by
  constructor
  · have hlen : (getContext lines (i - 1) 2).length
        = (min (lines.length - 1) ((i - 1) + 2) + 1 - ((i - 1) - 2)) - 1 :=
      range'_skip_length (fun k => toString (k + 1) ++ ": " ++ trimStr (lines.getD k ""))
        (i - 1) ((i - 1) - 2) (min (lines.length - 1) ((i - 1) + 2) + 1 - ((i - 1) - 2))
        (by omega) (by omega)
    rw [hlen]
    omega
  · intro e he
    simp only [getContext] at he
    obtain ⟨a, ha, hfa⟩ := List.mem_filterMap.mp he
    obtain ⟨hlo, hhi⟩ := List.mem_range'_1.mp ha
    by_cases ham : a = i - 1
    · rw [if_pos ham] at hfa
      cases hfa
    · rw [if_neg ham] at hfa
      exact ⟨a, by omega, by omega, (Option.some.inj hfa).symm⟩

/-- C3 counterexample: at the spec's own example (match at 1-based line 2 of a
7-line body) the context has 3 entries, while the claimed formula
min(i+2, n) - max(i-2, 1) - 1 gives 2. -/
theorem getContext_claimed_length_counterexample :
    (getContext ["a", "FOO", "b", "c", "d", "FOO", "e"] 1 2).length = 3
    ∧ min (2 + 2) 7 - max (2 - 2) 1 - 1 = 2 := by decide

/-- C3 witness: the amended length formula evaluated at the same input. -/
theorem getContext_window_spec_witness :
    (getContext ["a", "FOO", "b", "c", "d", "FOO", "e"] 1 2).length
      = min (2 + 2) 7 - max (2 - 2) 1 :=
  (getContext_window_spec ["a", "FOO", "b", "c", "d", "FOO", "e"] 2
    (by decide) (by decide)).1

/-- With the guard false the loop returns its state unchanged. -/
theorem getAllRun_guard_false (fetchPage : Nat → Nat → Option (List DebugLog))
    (maxLogs fuel : Nat) (s : FetchAllState) (h : getAllGuard maxLogs s = false) :
    getAllRun fetchPage maxLogs fuel s = s := by
  cases fuel with
  | zero => rfl
  | succ fuel => simp [getAllRun, h]

/-- C2: in every iteration the offset advances by exactly the number of
records the page actually returned; under the precondition that a page never
over-returns, a positive maxLogs is never exceeded by the accumulator (at
loop-invariant level, at run level and for the function itself); maxLogs zero
(or unset, which the source treats identically) disables the count bound, and
with full pages forever the accumulation grows without bound, a full page per
iteration. -/
theorem getAllDebugLogs_pagination_spec
    (fetchPage : Nat → Nat → Option (List DebugLog))
    (hle : ∀ lim off batch, fetchPage lim off = some batch → batch.length ≤ lim) :
    (∀ maxLogs s batch, getAllGuard maxLogs s = true →
      fetchPage (currentBatchSize maxLogs s) s.offset = some batch →
      (getAllStep fetchPage maxLogs s).offset = s.offset + batch.length)
    ∧ (∀ maxLogs, 0 < maxLogs → ∀ fuel s, s.allLogs.length ≤ maxLogs →
      (getAllRun fetchPage maxLogs fuel s).allLogs.length ≤ maxLogs)
    ∧ (∀ maxLogs fuel, 0 < maxLogs → (getAllDebugLogs fetchPage maxLogs fuel).length ≤ maxLogs)
    ∧ (∀ s, getAllGuard 0 s = s.hasMore)
    ∧ (∀ pages : Nat → List DebugLog,
      (∀ off, fetchPage pageBatchSize off = some (pages off)) →
      (∀ off, (pages off).length = pageBatchSize) → ∀ fuel s, s.hasMore = true →
      (getAllRun fetchPage 0 fuel s).allLogs.length
        = s.allLogs.length + pageBatchSize * fuel) := by
  have invariant : ∀ maxLogs, 0 < maxLogs → ∀ fuel s, s.allLogs.length ≤ maxLogs →
      (getAllRun fetchPage maxLogs fuel s).allLogs.length ≤ maxLogs := by
    intro maxLogs hpos fuel
    induction fuel with
    | zero => intro s h; exact h
    | succ fuel ih =>
      intro s h
      by_cases g : getAllGuard maxLogs s = true
      · rw [getAllRun, if_pos g]
        refine ih (getAllStep fetchPage maxLogs s) ?_
        cases hf : fetchPage (currentBatchSize maxLogs s) s.offset with
        | none => simpa [getAllStep, hf] using h
        | some batch =>
          have hb := hle _ _ _ hf
          have hmz : (maxLogs == 0) = false := by
            simp only [beq_eq_false_iff_ne, ne_eq]
            omega
          have hcb : currentBatchSize maxLogs s ≤ maxLogs - s.allLogs.length := by
            simp only [currentBatchSize, hmz, if_false]
            exact min_le_right _ _
          have hguard : s.allLogs.length < maxLogs := by
            simp only [getAllGuard, Bool.and_eq_true, Bool.or_eq_true, beq_iff_eq,
              decide_eq_true_eq] at g
            omega
          simp only [getAllStep, hf, List.length_append]
          omega
      · rw [getAllRun_guard_false fetchPage maxLogs (fuel + 1) s (by simpa using g)]
        exact h
  refine ⟨?_, invariant, ?_, ?_, ?_⟩
  · intro maxLogs s batch _ hf
    simp [getAllStep, hf]
  · intro maxLogs fuel hpos
    exact invariant maxLogs hpos fuel initialFetchAll (by simp [initialFetchAll])
  · intro s
    simp [getAllGuard]
  · intro pages hfull hlen fuel
    induction fuel with
    | zero => intro s _; simp [getAllRun]
    | succ fuel ih =>
      intro s hmore
      have g : getAllGuard 0 s = true := by simp [getAllGuard, hmore]
      have hc : currentBatchSize 0 s = pageBatchSize := by simp [currentBatchSize]
      rw [getAllRun, if_pos g]
      have hstep : getAllStep fetchPage 0 s
          = ⟨s.allLogs ++ pages s.offset, s.offset + (pages s.offset).length, true⟩ := by
        simp only [getAllStep, hc, hfull s.offset]
        simp [hlen s.offset]
      rw [hstep, ih ⟨s.allLogs ++ pages s.offset, s.offset + (pages s.offset).length, true⟩ rfl]
      simp only [List.length_append, hlen s.offset]
      ring

/-- C2 witness: a server whose pages are empty (so never over-full) keeps the
accumulator within a positive maxLogs. -/
theorem getAllDebugLogs_pagination_spec_witness :
    (getAllDebugLogs (fun _ _ => some []) 5 10).length ≤ 5 :=
  (getAllDebugLogs_pagination_spec (fun _ _ => some [])
    (fun lim off batch h => by simp_all)).2.2.1 5 10 (by decide)

/-- C7: when the page fetch at the current state fails, the loop breaks and
returns exactly the records accumulated from the earlier pages, whatever fuel
remains; the error is swallowed and the result is an ordinary return value. -/
theorem getAllRun_pageFailure_partial (fetchPage : Nat → Nat → Option (List DebugLog))
    (maxLogs fuel : Nat) (s : FetchAllState)
    (hfail : fetchPage (currentBatchSize maxLogs s) s.offset = none) :
    (getAllRun fetchPage maxLogs fuel s).allLogs = s.allLogs := by
  cases fuel with
  | zero => rfl
  | succ fuel =>
    by_cases g : getAllGuard maxLogs s = true
    · rw [getAllRun, if_pos g]
      have hstep : getAllStep fetchPage maxLogs s = { s with hasMore := false } := by
        simp [getAllStep, hfail]
      rw [hstep, getAllRun_guard_false fetchPage maxLogs fuel _ (by simp [getAllGuard])]
    · rw [getAllRun_guard_false fetchPage maxLogs (fuel + 1) s (by simpa using g)]

/-- C7 witness: a failing first page yields the empty accumulation, returned
normally. -/
theorem getAllRun_pageFailure_partial_witness :
    (getAllRun (fun _ _ => none) 0 3 initialFetchAll).allLogs = [] :=
  getAllRun_pageFailure_partial (fun _ _ => none) 0 3 initialFetchAll rfl

/-- Digit characters are never a space. -/
theorem digitChar_ne_space (m : Nat) : Nat.digitChar m ≠ ' ' := by
  by_cases h : m < 16
  · interval_cases m <;> decide
  · intro hc
    unfold Nat.digitChar at hc
    repeat rw [if_neg (by omega)] at hc
    exact absurd hc (by decide)

/-- The decimal-rendering worker adds only digit characters. -/
theorem toDigitsCore_ne_space (fuel : Nat) : ∀ (n : Nat) (ds : List Char),
    (∀ c ∈ ds, c ≠ ' ') → ∀ c ∈ Nat.toDigitsCore 10 fuel n ds, c ≠ ' ' := by
  induction fuel with
  | zero =>
    intro n ds h c hc
    exact h c hc
  | succ fuel ih =>
    intro n ds h c hc
    simp only [Nat.toDigitsCore] at hc
    split at hc
    · rcases List.mem_cons.mp hc with rfl | hm
      · exact digitChar_ne_space _
      · exact h c hm
    · refine ih (n / 10) _ ?_ c hc
      intro c' hc'
      rcases List.mem_cons.mp hc' with rfl | hm
      · exact digitChar_ne_space _
      · exact h c' hm

/-- The decimal rendering of a natural number contains no space. -/
theorem natRepr_ne_space (n : Nat) : ∀ c ∈ (Nat.repr n).data, c ≠ ' ' :=
  toDigitsCore_ne_space (n + 1) n [] (by simp)

/-- The decimal rendering of an integer contains no space. -/
theorem intToString_ne_space (l : Int) : ∀ c ∈ (toString l).data, c ≠ ' ' := by
  cases l with
  | ofNat n => exact natRepr_ne_space n
  | negSucc n =>
    intro c hc
    have hc' : c ∈ '-' :: (Nat.repr (n + 1)).data := hc
    rcases List.mem_cons.mp hc' with rfl | hm
    · decide
    · exact natRepr_ne_space (n + 1) c hm

/-- takeWhile passes over a prefix it fully satisfies. -/
theorem takeWhile_append_all (p : α → Bool) (l1 l2 : List α) (h : ∀ a ∈ l1, p a = true) :
    (l1 ++ l2).takeWhile p = l1 ++ l2.takeWhile p := by
  induction l1 with
  | nil => simp
  | cons a t ih =>
    rw [List.cons_append, List.takeWhile_cons,
      if_pos (h a (List.mem_cons_self a t)),
      ih fun x hx => h x (List.mem_cons_of_mem a hx), List.cons_append]

/-- The last token of anything followed by one space and a space-free suffix
is that suffix. -/
theorem lastToken_append (xs ys : List Char) (h : ∀ c ∈ ys, c ≠ ' ') :
    lastToken ⟨xs ++ ' ' :: ys⟩ = ⟨ys⟩ := by
  have hdata : (⟨xs ++ ' ' :: ys⟩ : String).data = xs ++ ' ' :: ys := rfl
  unfold lastToken
  rw [hdata]
  congr 1
  rw [List.reverse_append, List.reverse_cons, List.append_assoc]
  rw [takeWhile_append_all (fun c => c != ' ') ys.reverse ([' '] ++ xs.reverse)
    (fun a ha => by
      have := h a (List.mem_reverse.mp ha)
      simpa using this)]
  simp

/-- A string ending in a space, followed by anything, still decomposes before
a final space. -/
theorem data_ends_space_append (a b : String) (h : ∃ ys, b.data = ys ++ [' ']) :
    ∃ xs, (a ++ b).data = xs ++ [' '] := by
  obtain ⟨ys, hy⟩ := h
  exact ⟨a.data ++ ys, by rw [String.data_append, hy, List.append_assoc]⟩

/-- A query built as a prefix ending in one space followed by the rendered
limit has that rendering as its last token. -/
theorem lastToken_of_prefix_space (p : String) (limit : Int)
    (hp : ∃ xs, p.data = xs ++ [' ']) :
    lastToken (p ++ toString limit) = toString limit := by
  obtain ⟨xs, hxs⟩ := hp
  have hdata : (p ++ toString limit).data = xs ++ ' ' :: (toString limit).data := by
    rw [String.data_append, hxs, List.append_assoc]
    rfl
  have h2 : p ++ toString limit = (⟨xs ++ ' ' :: (toString limit).data⟩ : String) := by
    calc p ++ toString limit = ⟨(p ++ toString limit).data⟩ := rfl
    _ = ⟨xs ++ ' ' :: (toString limit).data⟩ := by rw [hdata]
  rw [h2, lastToken_append xs _ (intToString_ne_space limit)]

/-- C4 amended: no clamping occurs; in all three single-page queries the LIMIT
value actually issued is the input limit rendered verbatim, for every input
limit, including zero, negative and above-cap values. -/
theorem query_limit_used_verbatim (limit : Int) (userId : String)
    (dateFrom dateTo : Option String) :
    lastToken (getDebugLogsQuery limit) = toString limit
    ∧ lastToken (getDebugLogsByUserQuery userId limit) = toString limit
    ∧ lastToken (getDebugLogsByDateRangeQuery dateFrom dateTo limit) = toString limit := by
  refine ⟨?_, ?_, ?_⟩
  · exact lastToken_of_prefix_space _ limit
      (data_ends_space_append soqlSelect " ORDER BY LastModifiedDate DESC LIMIT "
        ⟨" ORDER BY LastModifiedDate DESC LIMIT ".data.dropLast, by decide⟩)
  · exact lastToken_of_prefix_space _ limit
      (data_ends_space_append (soqlSelect ++ " WHERE LogUserId = \x27" ++ userId)
        "\x27 ORDER BY LastModifiedDate DESC LIMIT "
        ⟨"\x27 ORDER BY LastModifiedDate DESC LIMIT ".data.dropLast, by decide⟩)
  · exact lastToken_of_prefix_space _ limit
      (data_ends_space_append (soqlSelect ++ dateRangeWhereClause dateFrom dateTo)
        " ORDER BY LastModifiedDate DESC LIMIT "
        ⟨" ORDER BY LastModifiedDate DESC LIMIT ".data.dropLast, by decide⟩)

/-- C4 counterexample: with input limit 0 the issued query's LIMIT value is 0,
not the spec's claimed clamp to at least 1 and at most the page cap. -/
theorem query_limit_clamping_counterexample :
    lastToken (getDebugLogsQuery 0) = "0"
    ∧ toString (clampedLimitSpec 200 0) = "1"
    ∧ lastToken (getDebugLogsQuery 0) ≠ toString (clampedLimitSpec 200 0) := by
  decide

/-- Joining the groups gives back the original id list: the groups are
consecutive and cover everything in order. -/
theorem batchesGo_flatten (fuel : Nat) : ∀ l : List α, l.length ≤ fuel →
    (batchesGo fuel l).flatten = l := by
  induction fuel with
  | zero =>
    intro l h
    have hl : l = [] := List.eq_nil_of_length_eq_zero (by omega)
    subst hl
    rfl
  | succ fuel ih =>
    intro l h
    cases l with
    | nil => rfl
    | cons x xs =>
      have h' : xs.length + 1 ≤ fuel + 1 := by simpa using h
      simp only [batchesGo, List.flatten_cons]
      rw [ih ((x :: xs).drop 10) (by simp [List.length_drop]; omega)]
      exact List.take_append_drop 10 (x :: xs)

/-- The batch loop partitions the ids without loss. -/
theorem logIdBatches_flatten (l : List α) : (logIdBatches l).flatten = l :=
  batchesGo_flatten l.length l (le_refl _)

/-- The group sizes follow the 10-at-a-time pattern determined by the count. -/
theorem batchesGo_lengths (fuel : Nat) : ∀ l : List α, l.length ≤ fuel →
    (batchesGo fuel l).map List.length = batchSizesGo fuel l.length := by
  induction fuel with
  | zero => intro l _; rfl
  | succ fuel ih =>
    intro l h
    cases l with
    | nil => rfl
    | cons x xs =>
      have h' : xs.length + 1 ≤ fuel + 1 := by simpa using h
      have hlen' : ((x :: xs).drop 10).length = xs.length + 1 - 10 := by
        simp [List.length_drop]
      simp only [batchesGo, List.map_cons]
      rw [ih ((x :: xs).drop 10) (by simp [List.length_drop]; omega), hlen']
      show _ :: _ = min 10 (xs.length + 1) :: batchSizesGo fuel (xs.length + 1 - 10)
      congr 1
      rw [List.length_take, List.length_cons]

/-- Filtering distributes over the flattened groups. -/
theorem flatten_map_filterMap (f : α → Option β) (L : List (List α)) :
    (L.map fun l => l.filterMap f).flatten = L.flatten.filterMap f := by
  induction L with
  | nil => rfl
  | cons l L ih =>
    simp only [List.map_cons, List.flatten_cons, List.filterMap_append, ih]

/-- The accumulated mapping is the sequential filterMap over all ids. -/
theorem getDebugLogBodies_eq (fetchBody : String → Option String) (logIds : List String) :
    getDebugLogBodies fetchBody logIds
      = logIds.filterMap fun logId => (fetchBody logId).map fun body => (logId, body) := by
  have hfb : fetchBatchBodies fetchBody
      = fun l => l.filterMap fun logId => (fetchBody logId).map fun body => (logId, body) := rfl
  unfold getDebugLogBodies
  rw [hfb, flatten_map_filterMap, logIdBatches_flatten]

/-- C5: ids are processed in consecutive groups of 10 covering the input in
order (a 25-id list gives sizes 10, 10, 5, the value of batchSizes 25); a
failing id is omitted from the returned mapping while every other id whose
fetch succeeds still appears with its body; every mapping entry is a genuine
success; no per-id failure aborts the batch. -/
theorem getDebugLogBodies_batching_spec (fetchBody : String → Option String)
    (logIds : List String) :
    ((logIdBatches logIds).map List.length = batchSizes logIds.length
      ∧ (logIdBatches logIds).flatten = logIds)
    ∧ (∀ logId ∈ logIds, ∀ body, fetchBody logId = some body →
        (logId, body) ∈ getDebugLogBodies fetchBody logIds)
    ∧ (∀ p ∈ getDebugLogBodies fetchBody logIds, p.1 ∈ logIds ∧ fetchBody p.1 = some p.2)
    ∧ (∀ logId body, fetchBody logId = none →
        (logId, body) ∉ getDebugLogBodies fetchBody logIds) := by
  refine ⟨⟨batchesGo_lengths logIds.length logIds (le_refl _), logIdBatches_flatten logIds⟩,
    ?_, ?_, ?_⟩
  · intro logId hmem body hb
    rw [getDebugLogBodies_eq]
    exact List.mem_filterMap.mpr ⟨logId, hmem, by rw [hb]; rfl⟩
  · intro p hp
    rw [getDebugLogBodies_eq] at hp
    obtain ⟨a, ha, hfa⟩ := List.mem_filterMap.mp hp
    cases hb : fetchBody a with
    | none => rw [hb] at hfa; cases hfa
    | some b =>
      rw [hb] at hfa
      have hpab : (a, b) = p := by simpa using hfa
      rw [← hpab]
      exact ⟨ha, hb⟩
  · intro logId body hnone hp
    rw [getDebugLogBodies_eq] at hp
    obtain ⟨a, ha, hfa⟩ := List.mem_filterMap.mp hp
    cases hb : fetchBody a with
    | none => rw [hb] at hfa; cases hfa
    | some b =>
      rw [hb] at hfa
      have hpab : a = logId ∧ b = body := by simpa using hfa
      rw [hpab.1] at hb
      rw [hb] at hnone
      cases hnone

/-- C5 witness: 25 ids give groups of 10, 10, 5; with the id "3" failing, id
"4" still maps to its body and "3" maps to nothing. -/
theorem getDebugLogBodies_batching_spec_witness :
    (logIdBatches ((List.range 25).map toString)).map List.length = [10, 10, 5]
    ∧ ("4", "B4") ∈ getDebugLogBodies
        (fun logId => if logId == "3" then none else some ("B" ++ logId))
        ((List.range 25).map toString)
    ∧ ("3", "B3") ∉ getDebugLogBodies
        (fun logId => if logId == "3" then none else some ("B" ++ logId))
        ((List.range 25).map toString) := by
  refine ⟨?_, ?_, ?_⟩
  · exact ((getDebugLogBodies_batching_spec
      (fun logId => if logId == "3" then none else some ("B" ++ logId))
      ((List.range 25).map toString)).1.1).trans (by decide)
  · exact (getDebugLogBodies_batching_spec
      (fun logId => if logId == "3" then none else some ("B" ++ logId))
      ((List.range 25).map toString)).2.1 "4" (by decide) "B4" (by decide)
  · exact (getDebugLogBodies_batching_spec
      (fun logId => if logId == "3" then none else some ("B" ++ logId))
      ((List.range 25).map toString)).2.2.2 "3" "B3" (by decide)

/-- C6: a record whose body fetch fails is silently omitted, all later records
are still processed, and the reported count of records searched still includes
the failed record. -/
theorem searchLogsWithStats_fetchFailure_skips
    (fetchBody : String → Option String) (searchText : String) (cs : Bool)
    (pre post : List DebugLog) (bad : DebugLog)
    (hbad : fetchBody bad.Id = none) :
    (searchLogsWithStats fetchBody searchText cs (pre ++ bad :: post)).1
      = (searchLogsWithStats fetchBody searchText cs pre).1
        ++ (searchLogsWithStats fetchBody searchText cs post).1
    ∧ (searchLogsWithStats fetchBody searchText cs (pre ++ bad :: post)).2
      = pre.length + 1 + post.length := by
  constructor
  · simp only [searchLogsWithStats, searchLogsLoop, List.filterMap_append]
    rw [List.filterMap_cons_none (by simp [searchLoopBody, hbad])]
  · simp only [searchLogsWithStats, List.length_append, List.length_cons]
    omega

/-- C6 witness: with the middle record's fetch failing, the results are those
of the outer records and the searched count is still 3. -/
theorem searchLogsWithStats_fetchFailure_skips_witness :
    (searchLogsWithStats
        (fun logId => if logId == "B" then none else some "foo line")
        "foo" false
        [⟨"A", "u", 1, "d", "r", "Op", "app", "s", 1, "t", "l"⟩,
         ⟨"B", "u", 1, "d", "r", "Op", "app", "s", 1, "t", "l"⟩,
         ⟨"C", "u", 1, "d", "r", "Op", "app", "s", 1, "t", "l"⟩]).1
      = (searchLogsWithStats
          (fun logId => if logId == "B" then none else some "foo line")
          "foo" false [⟨"A", "u", 1, "d", "r", "Op", "app", "s", 1, "t", "l"⟩]).1
        ++ (searchLogsWithStats
          (fun logId => if logId == "B" then none else some "foo line")
          "foo" false [⟨"C", "u", 1, "d", "r", "Op", "app", "s", 1, "t", "l"⟩]).1
    ∧ (searchLogsWithStats
        (fun logId => if logId == "B" then none else some "foo line")
        "foo" false
        [⟨"A", "u", 1, "d", "r", "Op", "app", "s", 1, "t", "l"⟩,
         ⟨"B", "u", 1, "d", "r", "Op", "app", "s", 1, "t", "l"⟩,
         ⟨"C", "u", 1, "d", "r", "Op", "app", "s", 1, "t", "l"⟩]).2 = 3 := by
  have h := searchLogsWithStats_fetchFailure_skips
    (fun logId => if logId == "B" then none else some "foo line") "foo" false
    [⟨"A", "u", 1, "d", "r", "Op", "app", "s", 1, "t", "l"⟩]
    [⟨"C", "u", 1, "d", "r", "Op", "app", "s", 1, "t", "l"⟩]
    ⟨"B", "u", 1, "d", "r", "Op", "app", "s", 1, "t", "l"⟩ (by decide)
  exact ⟨h.1, h.2.trans (by decide)⟩

/-- C9: when the search yields zero matching logs, searchAndDownloadLogs
returns at once: the report carries the searched count but zero matching
logs, zero downloaded, an empty failure list and zero estimated size, and no
collaborator is called (no directory creation, no bulk body fetch, no file
write). -/
theorem searchAndDownloadLogs_zeroMatches
    (fetchBody : String → Option String) (saveOk : String → Bool)
    (formatDate : String → String) (logs : List DebugLog) (searchText : String)
    (cs : Bool) (outputDir : String) (im csum : Bool)
    (h : searchLogsLoop fetchBody searchText cs logs = []) :
    searchAndDownloadLogs fetchBody saveOk formatDate logs searchText cs outputDir im csum
      = (⟨searchText, logs.length, 0, 0, [], outputDir, 0⟩, []) := by
  simp [searchAndDownloadLogs, searchLogsWithStats, h]

/-- C9 witness: one searched log, no match, so the zero report comes back with
no effects. -/
theorem searchAndDownloadLogs_zeroMatches_witness :
    searchAndDownloadLogs (fun _ => some "hello") (fun _ => true) (fun d => d)
        [⟨"A", "u", 1, "d", "r", "Op", "app", "s", 1, "t", "l"⟩] "zzz" false "out" true true
      = (⟨"zzz", 1, 0, 0, [], "out", 0⟩, []) :=
  searchAndDownloadLogs_zeroMatches (fun _ => some "hello") (fun _ => true) (fun d => d)
    [⟨"A", "u", 1, "d", "r", "Op", "app", "s", 1, "t", "l"⟩] "zzz" false "out" true true
    (by decide)

/-- Dropping an element to none makes the filterMap strictly shorter. -/
theorem length_filterMap_lt_of_none (f : α → Option β) (l : List α) (a : α)
    (ha : a ∈ l) (hfa : f a = none) : (l.filterMap f).length < l.length := by
  induction l with
  | nil => cases ha
  | cons x t ih =>
    rcases List.mem_cons.mp ha with rfl | hm
    · rw [List.filterMap_cons_none hfa, List.length_cons]
      exact Nat.lt_succ_of_le (List.length_filterMap_le f t)
    · cases hx : f x with
      | none =>
        rw [List.filterMap_cons_none hx, List.length_cons]
        exact Nat.lt_succ_of_lt (ih hm)
      | some b =>
        rw [List.filterMap_cons_some hx, List.length_cons, List.length_cons]
        exact Nat.succ_lt_succ (ih hm)

/-- C10: with createSummary enabled and at least one matching log, the summary
written to download-summary.json carries the matching-log count in its
statistics.totalLogsSearched field, while the DownloadResult returned to the
caller carries the true searched count; the two differ whenever some searched
record yielded no result. -/
theorem downloadSummary_total_is_matching_count
    (fetchBody : String → Option String) (saveOk : String → Bool)
    (formatDate : String → String) (logs : List DebugLog) (searchText : String)
    (cs : Bool) (outputDir : String) (im : Bool)
    (hne : searchLogsLoop fetchBody searchText cs logs ≠ []) :
    ∃ s : DownloadSummary,
      Effect.saveSummary (joinPath outputDir "download-summary.json") s
          ∈ (searchAndDownloadLogs fetchBody saveOk formatDate logs searchText cs
              outputDir im true).2
      ∧ s.statistics.totalLogsSearched
          = (searchLogsLoop fetchBody searchText cs logs).length
      ∧ (searchAndDownloadLogs fetchBody saveOk formatDate logs searchText cs
          outputDir im true).1.totalLogsSearched = logs.length
      ∧ ∀ bad ∈ logs, searchLoopBody fetchBody searchText cs bad = none →
          s.statistics.totalLogsSearched
            ≠ (searchAndDownloadLogs fetchBody saveOk formatDate logs searchText cs
                outputDir im true).1.totalLogsSearched := by
  have hlen : ¬ (searchLogsLoop fetchBody searchText cs logs).length = 0 := by
    simpa [List.length_eq_zero] using hne
  simp only [searchAndDownloadLogs, searchLogsWithStats, if_neg hlen]
  refine ⟨createDownloadSummary searchText
      (List.map SearchResult.log (searchLogsLoop fetchBody searchText cs logs)).length
      (searchLogsLoop fetchBody searchText cs logs).length
      (saveSearchResults (getDebugLogBodies fetchBody
          (List.map DebugLog.Id (List.map SearchResult.log
            (searchLogsLoop fetchBody searchText cs logs))))
        saveOk formatDate outputDir im (searchLogsLoop fetchBody searchText cs logs)).1.length
      (saveSearchResults (getDebugLogBodies fetchBody
          (List.map DebugLog.Id (List.map SearchResult.log
            (searchLogsLoop fetchBody searchText cs logs))))
        saveOk formatDate outputDir im (searchLogsLoop fetchBody searchText cs logs)).2.1,
    ?_, ?_, ?_, ?_⟩
  · simp
  · simp [createDownloadSummary]
  · simp
  · intro bad hmem hnone
    have hlt : (searchLogsLoop fetchBody searchText cs logs).length < logs.length :=
      length_filterMap_lt_of_none (searchLoopBody fetchBody searchText cs) logs bad hmem hnone
    simp only [createDownloadSummary, List.length_map]
    omega

/-- C10 witness: two logs searched, one matching; the returned report counts
both. -/
theorem downloadSummary_total_is_matching_count_witness :
    (searchAndDownloadLogs (fun logId => if logId == "A" then some "foo" else some "bar")
        (fun _ => true) (fun d => d)
        [⟨"A", "u", 1, "d", "r", "Op", "app", "s", 1, "t", "l"⟩,
         ⟨"B", "u", 1, "d", "r", "Op", "app", "s", 1, "t", "l"⟩]
        "foo" false "out" true true).1.totalLogsSearched = 2 := by
  obtain ⟨s, hmem, hs, htot, hdiff⟩ := downloadSummary_total_is_matching_count
    (fun logId => if logId == "A" then some "foo" else some "bar")
    (fun _ => true) (fun d => d)
    [⟨"A", "u", 1, "d", "r", "Op", "app", "s", 1, "t", "l"⟩,
     ⟨"B", "u", 1, "d", "r", "Op", "app", "s", 1, "t", "l"⟩]
    "foo" false "out" true (by decide)
  exact htot.trans (by decide)

/-- Every log-file write of the by-id save loop belongs to one of the iterated
(recovered) records. -/
theorem saveLogsById_saveLog_src (logBodies : List (String × String))
    (saveOk : String → Bool) (formatDate : String → String) (outputDir : String)
    (im : Bool) : ∀ ll : List DebugLog,
    ∀ e ∈ (saveLogsById logBodies saveOk formatDate outputDir im ll).2.2,
      ∀ p b, e = Effect.saveLog p b →
        ∃ l ∈ ll, p = joinPath outputDir (generateLogFileName formatDate l ".log") := by
  intro ll
  induction ll with
  | nil => intro e he; cases he
  | cons log rest ih =>
    intro e he p b hepb
    cases hl : logBodies.lookup log.Id with
    | none =>
      simp only [saveLogsById, hl] at he
      obtain ⟨l, hlmem, hp⟩ := ih e he p b hepb
      exact ⟨l, List.mem_cons_of_mem log hlmem, hp⟩
    | some logBody =>
      simp only [saveLogsById, hl] at he
      by_cases hs : saveOk (joinPath outputDir (generateLogFileName formatDate log ".log")) = true
      · rw [if_pos hs] at he
        rcases List.mem_cons.mp he with rfl | he2
        · cases hepb
          exact ⟨log, List.mem_cons_self log rest, rfl⟩
        · rcases List.mem_append.mp he2 with hmeta | hacc
          · by_cases him : im = true
            · rw [if_pos him] at hmeta
              rcases List.mem_cons.mp hmeta with rfl | hmeta2
              · cases hepb
              · cases hmeta2
            · rw [if_neg him] at hmeta
              cases hmeta
          · obtain ⟨l, hlmem, hp⟩ := ih e hacc p b hepb
            exact ⟨l, List.mem_cons_of_mem log hlmem, hp⟩
      · rw [if_neg hs] at he
        obtain ⟨l, hlmem, hp⟩ := ih e he p b hepb
        exact ⟨l, List.mem_cons_of_mem log hlmem, hp⟩

/-- Every id the by-id save loop marks failed is the Id of an iterated
record. -/
theorem saveLogsById_failed_src (logBodies : List (String × String))
    (saveOk : String → Bool) (formatDate : String → String) (outputDir : String)
    (im : Bool) : ∀ ll : List DebugLog,
    ∀ fid ∈ (saveLogsById logBodies saveOk formatDate outputDir im ll).2.1,
      ∃ l ∈ ll, fid = l.Id := by
  intro ll
  induction ll with
  | nil => intro fid hf; cases hf
  | cons log rest ih =>
    intro fid hf
    cases hl : logBodies.lookup log.Id with
    | none =>
      simp only [saveLogsById, hl] at hf
      rcases List.mem_cons.mp hf with rfl | hf2
      · exact ⟨log, List.mem_cons_self log rest, rfl⟩
      · obtain ⟨l, hlmem, hfid⟩ := ih fid hf2
        exact ⟨l, List.mem_cons_of_mem log hlmem, hfid⟩
    | some logBody =>
      simp only [saveLogsById, hl] at hf
      by_cases hs : saveOk (joinPath outputDir (generateLogFileName formatDate log ".log")) = true
      · rw [if_pos hs] at hf
        obtain ⟨l, hlmem, hfid⟩ := ih fid hf
        exact ⟨l, List.mem_cons_of_mem log hlmem, hfid⟩
      · rw [if_neg hs] at hf
        rcases List.mem_cons.mp hf with rfl | hf2
        · exact ⟨log, List.mem_cons_self log rest, rfl⟩
        · obtain ⟨l, hlmem, hfid⟩ := ih fid hf2
          exact ⟨l, List.mem_cons_of_mem log hlmem, hfid⟩

/-- C8 amended: a requested id with no metadata among the recent records is
excluded from size estimation (the estimate covers recovered records only,
none of which is the id), and its body is never written to disk even when the
bulk fetch retrieved it: every written log file belongs to a recovered record,
and the id is not even recorded among the failed downloads. -/
theorem downloadLogsByIds_unknownId_dropped
    (fetchBody : String → Option String) (saveOk : String → Bool)
    (formatDate : String → String) (recentLogs : List DebugLog)
    (logIds : List String) (outputDir : String) (im : Bool) (badId : String)
    (_hmem : badId ∈ logIds) (hnone : ∀ l ∈ recentLogs, l.Id ≠ badId) :
    ((downloadLogsByIds fetchBody saveOk formatDate recentLogs logIds outputDir im).1.estimatedSize
        = estimatedDownloadSize (recoveredLogs recentLogs logIds)
      ∧ ∀ l ∈ recoveredLogs recentLogs logIds, l.Id ≠ badId)
    ∧ (∀ e ∈ (downloadLogsByIds fetchBody saveOk formatDate recentLogs logIds outputDir im).2,
        ∀ p b, e = Effect.saveLog p b →
          ∃ l ∈ recoveredLogs recentLogs logIds,
            p = joinPath outputDir (generateLogFileName formatDate l ".log"))
    ∧ badId ∉ (downloadLogsByIds fetchBody saveOk formatDate recentLogs logIds
        outputDir im).1.failedDownloads := by
  have hexcl : ∀ l ∈ recoveredLogs recentLogs logIds, l.Id ≠ badId := by
    intro l hl
    obtain ⟨logId, _, hfind⟩ := List.mem_filterMap.mp hl
    exact hnone l (List.mem_of_find?_eq_some hfind)
  refine ⟨⟨rfl, hexcl⟩, ?_, ?_⟩
  · intro e he p b hepb
    have he' : e ∈ Effect.ensureDir outputDir :: Effect.bulkFetch logIds
        :: (saveLogsById (getDebugLogBodies fetchBody logIds) saveOk formatDate outputDir im
            (recoveredLogs recentLogs logIds)).2.2 := he
    rcases List.mem_cons.mp he' with rfl | he2
    · cases hepb
    · rcases List.mem_cons.mp he2 with rfl | he3
      · cases hepb
      · exact saveLogsById_saveLog_src _ saveOk formatDate outputDir im _ e he3 p b hepb
  · intro hbad
    have hbad' : badId ∈ (saveLogsById (getDebugLogBodies fetchBody logIds) saveOk formatDate
        outputDir im (recoveredLogs recentLogs logIds)).2.1 := hbad
    obtain ⟨l, hlmem, hfid⟩ := saveLogsById_failed_src _ saveOk formatDate outputDir im _
      badId hbad'
    exact hexcl l hlmem hfid.symm

/-- C8 counterexample: the id "07Lx" is absent from the (empty) recent page;
its body is retrieved by the bulk fetch, yet no file write happens at all:
the effects stop at directory creation and the bulk fetch, the estimate is 0
and nothing is recorded as failed. -/
theorem downloadLogsByIds_unknownId_counterexample :
    getDebugLogBodies (fun _ => some "BODY") ["07Lx"] = [("07Lx", "BODY")]
    ∧ (downloadLogsByIds (fun _ => some "BODY") (fun _ => true) (fun d => d) [] ["07Lx"]
        "out" true).2 = [Effect.ensureDir "out", Effect.bulkFetch ["07Lx"]]
    ∧ (downloadLogsByIds (fun _ => some "BODY") (fun _ => true) (fun d => d) [] ["07Lx"]
        "out" true).1.estimatedSize = 0
    ∧ (downloadLogsByIds (fun _ => some "BODY") (fun _ => true) (fun d => d) [] ["07Lx"]
        "out" true).1.failedDownloads = [] := by
  decide

/-- C8 witness: the amended dropping behavior at the counterexample's input. -/
theorem downloadLogsByIds_unknownId_dropped_witness :
    "07Lx" ∉ (downloadLogsByIds (fun _ => some "BODY") (fun _ => true) (fun d => d) []
      ["07Lx"] "out" true).1.failedDownloads :=
  (downloadLogsByIds_unknownId_dropped (fun _ => some "BODY") (fun _ => true) (fun d => d)
    [] ["07Lx"] "out" true "07Lx" (by decide) (by simp)).2.2

end SfLogs
